import Mathlib

/-
Verification of the request-construction / lifecycle layer of the
undici-experimental HTTP client.

Shallow embedding of:
  - src/unnamed/part_000 : the `Request` class (constructor, header
    processing, body classification, lifecycle state machine);
  - src/lib/core/util.js : grammar predicates, `parseRangeHeader`,
    `serializePathWithQuery`, `assertRequestHandler`.

Modelling conventions:
  - JS exceptions are `Except JSError` for construction-time code; for the
    lifecycle methods (which mutate the heap-allocated request before a
    possible throw) a `StepResult` carries the mutated state, the list of
    handler/abort invocations, and the optionally propagated exception.
  - Machine numbers: `content-length` values are parsed with a model of
    `parseInt(v, 10)` returning `Option Int`: `none` models a non-finite
    result (`NaN` when no digits are found, `Infinity` when the magnitude
    rounds past the IEEE-754 double range), and a `some` value is the
    integral double `parseInt` produces — exact below `2^53`, rounded to
    the nearest double (half-to-even) above — so both the
    `Number.isFinite` gate and the stored value are faithful.
  - Strings are handled on their character lists; the claim inputs are
    ASCII, where JS `toLowerCase` agrees with `Char.toLower` mapping.
  - Observability `channels.*.publish` calls are fire-and-forget pass-throughs
    to an external subscriber and have no effect on the request state; they
    are not represented.
-/

namespace Undici

/-- Model of JS `pre.startsWith(p)` on character lists. -/
def listStartsWith : List Char → List Char → Bool
  | [], _ => true
  | _ :: _, [] => false
  | p :: ps, c :: cs => p == c && listStartsWith ps cs

/-- Model of JS `s.startsWith(pre)`. -/
def jsStartsWith (s pre : String) : Bool :=
  listStartsWith pre.data s.data

/-- Model of JS `s.includes(c)` for a single character. -/
def jsIncludesChar (s : String) (c : Char) : Bool :=
  s.data.any (fun x => x == c)

/-- Model of JS `s.toLowerCase()` (ASCII range; all claim inputs are ASCII). -/
def jsToLowerCase (s : String) : String :=
  String.mk (s.data.map Char.toLower)

/-- Value of a list of decimal digit characters. -/
def digitsToNat (ds : List Char) : Nat :=
  ds.foldl (fun a c => a * 10 + (c.toNat - 48)) 0

/-- Longest leading run of decimal digits, as a number; `none` if there is none. -/
def parseDigits (cs : List Char) : Option Nat :=
  let ds := cs.takeWhile Char.isDigit
  if ds.isEmpty then none else some (digitsToNat ds)

/-- ECMAScript `StrWhiteSpace` characters skipped by `parseInt`: whitespace
(TAB, VT, FF, SP, NBSP, ZWNBSP, the Unicode space separators) and the line
terminators LF, CR, LS, PS. -/
def isJSWhitespace (c : Char) : Bool :=
  c == ' ' || c == '\t' || c == '\n' || c == '\r' ||
  decide (c.toNat = 0x0b) || decide (c.toNat = 0x0c) ||
  decide (c.toNat = 0xa0) || decide (c.toNat = 0xfeff) ||
  decide (c.toNat = 0x1680) || decide (0x2000 ≤ c.toNat ∧ c.toNat ≤ 0x200a) ||
  decide (c.toNat = 0x2028) || decide (c.toNat = 0x2029) ||
  decide (c.toNat = 0x202f) || decide (c.toNat = 0x205f) ||
  decide (c.toNat = 0x3000)

/-- Number of binary digits of `n`, fuel-bounded (structural so that the
kernel can evaluate it); exact whenever `n < 2^fuel`. -/
def bitLenAux : Nat → Nat → Nat
  | 0, _ => 0
  | fuel + 1, n => if n = 0 then 0 else bitLenAux fuel (n / 2) + 1

/-- Rounds a natural number to the nearest IEEE-754 binary64 double
(round-half-to-even), as JS number conversion does: exact below `2^53`,
rounded to 53 significant bits above, and `none` when the rounded value
reaches `2^1024` (overflow to `Infinity`).  Inputs of `2^1026` and beyond
are certainly overflows, so the bit-length fuel of 1100 is exact on every
input that reaches the rounding arithmetic. -/
def roundNatToDouble (n : Nat) : Option Nat :=
  if n < 2 ^ 53 then some n
  else if 2 ^ 1026 ≤ n then none
  else
    let k := bitLenAux 1100 n - 1
    let shift := k - 52
    let q := n / 2 ^ shift
    let r := n % 2 ^ shift
    let half := 2 ^ (shift - 1)
    let q2 := if decide (half < r) || (r == half && q % 2 == 1) then q + 1 else q
    let v := q2 * 2 ^ shift
    if 2 ^ 1024 ≤ v then none else some v

/-- Model of JS `parseInt(s, 10)`: skip ECMAScript whitespace, optional sign,
longest ASCII-digit prefix, then convert to a double.  `none` models a
non-finite result — `NaN` when there are no digits, `Infinity` when the
magnitude rounds past the double range — and a `some` value is the integral
double `parseInt` produces (node/V8 rounds the full digit string correctly;
the model follows node rather than the ES latitude to zero out digits past
the 20th). -/
def parseIntJS (s : String) : Option Int :=
  let cs := s.data.dropWhile isJSWhitespace
  match cs with
  | '-' :: rest => (parseDigits rest).bind (fun n => (roundNatToDouble n).map (fun m => -(m : Int)))
  | '+' :: rest => (parseDigits rest).bind (fun n => (roundNatToDouble n).map (fun m => (m : Int)))
  | _ => (parseDigits cs).bind (fun n => (roundNatToDouble n).map (fun m => (m : Int)))

/-- src/lib/core/util.js `isTokenCharCode(c)`, translated literally. -/
def isTokenCharCode (c : Nat) : Bool :=
  ! (decide (c = 0x22 ∨ (0x28 ≤ c ∧ c ≤ 0x29) ∨ (0x2c ≤ c ∧ c ≤ 0x2f) ∨
      (0x3a ≤ c ∧ c ≤ 0x3e) ∨ (0x40 ≤ c ∧ c ≤ 0x5d) ∨ (0x7b ≤ c ∧ c ≤ 0x7d) ∨
      c < 0x21 ∨ 0x7e < c))

/-- src/lib/core/util.js `isValidHTTPToken(str)`: nonempty and every character
is a token character. -/
def isValidHTTPToken (s : String) : Bool :=
  decide (0 < s.data.length) && s.data.all (fun c => isTokenCharCode c.toNat)

/-- One character of `isValidHeaderValue`: TAB, 0x20-0x7E or 0x80-0xFF. -/
def isValidHeaderValueChar (c : Nat) : Bool :=
  decide (c = 0x9 ∨ (0x20 ≤ c ∧ c ≤ 0x7e) ∨ (0x80 ≤ c ∧ c ≤ 0xff))

/-- src/lib/core/util.js `isValidHeaderValue(str)`:
`!/[^\t\x20-\x7e\x80-\xff]/.test(str)`. -/
def isValidHeaderValue (s : String) : Bool :=
  s.data.all (fun c => isValidHeaderValueChar c.toNat)

/-- Result object of `parseRangeHeader`; `endV`/`sizeV` model the JS fields
`end`/`size`, with `none` for `null`. -/
structure RangeResult where
  start : Int
  endV : Option Int
  sizeV : Option Int
deriving Repr, DecidableEq

/-- Matches the literal prefix `bytes=` of the range regex. -/
def stripBytesEq : List Char → Option (List Char)
  | 'b' :: 'y' :: 't' :: 'e' :: 's' :: '=' :: rest => some rest
  | _ => none

/-- Model of `/^bytes=(\d+)-(\d+)\/(\d+)?$/.exec(s)`: returns the three digit
groups on a match (the third is optional), `none` when the regex does not
match.  Greedy `\d+` followed by a non-digit delimiter needs no backtracking,
so maximal-munch scanning is exact. -/
def execRangeRegex (s : String) : Option (List Char × List Char × Option (List Char)) :=
  match stripBytesEq s.data with
  | none => none
  | some cs =>
    let d1 := cs.takeWhile Char.isDigit
    let r1 := cs.drop d1.length
    if d1.isEmpty then none else
    match r1 with
    | '-' :: r2 =>
      let d2 := r2.takeWhile Char.isDigit
      let r3 := r2.drop d2.length
      if d2.isEmpty then none else
      match r3 with
      | '/' :: r4 =>
        let d3 := r4.takeWhile Char.isDigit
        let r5 := r4.drop d3.length
        if r5.isEmpty then some (d1, d2, if d3.isEmpty then none else some d3) else none
      | _ => none
    | _ => none

/-- src/lib/core/util.js `parseRangeHeader(range)`.  The input is
`Option String` (`none` = `undefined`); a falsy input (`undefined` or the
empty string) yields the default object, a non-matching input yields `none`
(the JS `null` failure signal), and a match mirrors the source ternaries
`match[2] ? parseInt(match[2], 10) : null` and likewise for `match[3]`. -/
def parseRangeHeader (range : Option String) : Option RangeResult :=
  match range with
  | none => some ⟨0, none, none⟩
  | some s =>
    if s == "" then some ⟨0, none, none⟩ else
    match execRangeRegex s with
    | none => none
    | some (d1, d2, od3) =>
      some ⟨(digitsToNat d1 : Int),
            if d2.isEmpty then none else some (digitsToNat d2 : Int),
            match od3 with
            | some d3 => if d3.isEmpty then none else some (digitsToNat d3 : Int)
            | none => none⟩

/-- JS error values thrown by the embedded code.  `invalidArgument` /
`notSupported` are the source's `InvalidArgumentError` / `NotSupportedError`
with their exact messages; `genericError` is a plain `Error`;
`assertionError` is node's `assert`; `typeError` a runtime `TypeError`;
`external` stands for opaque error values originating outside this layer
(body-stream errors, transport errors, handler-thrown values). -/
inductive JSError
  | invalidArgument (msg : String)
  | notSupported (msg : String)
  | genericError (msg : String)
  | assertionError (msg : String)
  | typeError (msg : String)
  | external (n : Nat)
deriving Repr, DecidableEq

/-- Whether a message ends in ` header.` or ` header` (the two spellings used
by the source's header-processing throw sites). -/
def jsEndsWithHeader (m : String) : Bool :=
  listStartsWith (" header.".data.reverse) m.data.reverse ||
  listStartsWith (" header".data.reverse) m.data.reverse

/-- The spec's `InvalidHeader` error kind: in the source these are
`InvalidArgumentError`s thrown from header processing, all with messages of
the shape `Invalid ... header`. -/
def isInvalidHeaderError : JSError → Bool
  | .invalidArgument m => jsStartsWith m "Invalid " && (jsEndsWithHeader m)
  | _ => false

/-- A caller-supplied handler method slot: missing, returning normally, or
synchronously throwing a given error. -/
inductive HandlerBehavior
  | absent
  | returns
  | throws (e : JSError)
deriving Repr, DecidableEq

/-- `typeof handler[m] === 'function'` (and the truthiness test of
`invokeHandlerMethod`): the slot holds a function. -/
def isFunction : HandlerBehavior → Bool
  | .absent => false
  | _ => true

/-- A caller-supplied handler capability object (§6 of the spec). -/
structure Handler where
  onConnect : HandlerBehavior := .returns
  onError : HandlerBehavior := .returns
  onHeaders : HandlerBehavior := .returns
  onData : HandlerBehavior := .returns
  onComplete : HandlerBehavior := .returns
  onBodySent : HandlerBehavior := .absent
  onRequestSent : HandlerBehavior := .absent
  onResponseStarted : HandlerBehavior := .absent
  onUpgrade : HandlerBehavior := .absent
deriving Repr, DecidableEq

/-- JS truthiness of an optional string (`undefined`/`null`/`""` are falsy). -/
def jsTruthyOptStr : Option String → Bool
  | none => false
  | some s => s != ""

/-- src/lib/core/util.js `assertRequestHandler(handler, method, upgrade)`:
`onConnect`/`onError` always required; unless the request is an upgrade or
`CONNECT`, `onHeaders`/`onData`/`onComplete` are also required.  A missing
method fails the node assertion with the source's message. -/
def assertRequestHandler (h : Handler) (method : String) (upgrade : Option String) :
    Except JSError Unit :=
  if !isFunction h.onConnect then .error (.assertionError "Invalid onConnect method")
  else if !isFunction h.onError then .error (.assertionError "Invalid onError method")
  else if !(jsTruthyOptStr upgrade || method == "CONNECT") then
    if !isFunction h.onHeaders then .error (.assertionError "Invalid onHeaders method")
    else if !isFunction h.onData then .error (.assertionError "Invalid onData method")
    else if !isFunction h.onComplete then .error (.assertionError "Invalid onComplete method")
    else .ok ()
  else .ok ()

/-- A normalized header value as stored by `addHeader`: a string or an array
of strings. -/
inductive HeaderValue
  | str (s : String)
  | arr (l : List String)
deriving Repr, DecidableEq

/-- JS string coercion of a stored header value (`parseInt` coerces its
argument; `Array.prototype.toString` joins with commas). -/
def headerValToString : HeaderValue → String
  | .str s => s
  | .arr l => String.intercalate "," l

/-- A caller-supplied header value before normalization.  The modelled value
universe is `undefined`, `null`, strings, and arrays whose elements are
strings or `null` — the shapes the source dispatches on in `addHeader`
(other scalars are stringified by the same `else` branch as `null`). -/
inductive JSVal
  | undef
  | null
  | str (s : String)
  | arr (l : List (Option String))
deriving Repr, DecidableEq

/-- The element map of `addHeader`'s array branch, translated literally:
`typeof v === 'string' && isValidHeaderValue(v) ? v : (v === null ? '' : String(v))`.
For a string element the validity test's outcome does not change the result,
since the template stringification of a string is the string itself. -/
def mapArrayElem : Option String → String
  | some s => if isValidHeaderValue s then s else s
  | none => ""

/-- The `headers` construction argument: absent, an (even-length) array of
alternating names/values — modelled as its list of pairs, with string keys —
an object's entry list, or a non-null non-object (which is rejected). -/
inductive HeadersInput
  | noneH
  | arrH (entries : List (String × JSVal))
  | objH (entries : List (String × JSVal))
  | invalidH
deriving Repr, DecidableEq

/-- A caller-supplied body value, tagged by the first classification predicate
of `processBody` that matches it (`isStream`, buffer/view/string,
`isFormDataLike`/`isIterable`/`isBlobLike`, or none of them). -/
inductive BodyVal
  | streamV (hasRState autoDestroy : Bool)
  | strV (s : String)
  | bytesV (l : List Nat)
  | formDataV
  | iterableV
  | blobV
  | otherV
deriving Repr, DecidableEq

/-- The body stored on the request after `processBody`. -/
inductive BodyOut
  | streamBody (hasRState autoDestroy : Bool)
  | bufferFromStr (s : String)
  | bufferFromBytes (l : List Nat)
  | formDataBody
  | iterableBody
  | blobBody
deriving Repr, DecidableEq

/-- JS truthiness of a body value at `options.body ? ... : null` (the empty
string is falsy; every modelled object is truthy). -/
def bodyTruthy : BodyVal → Bool
  | .strV s => s != ""
  | _ => true

/-- `Request.processBody` plus the `setupStream` listener attachment.
Returns the stored body together with the (errorHandler, endHandler)
attachment flags: for a stream the error listener is always attached, and the
end listener is attached iff `!rState || !rState.autoDestroy`. -/
def processBodyVal (b : BodyVal) : Except JSError (Option BodyOut × Bool × Bool) :=
  match b with
  | .streamV hasRState autoDestroy =>
      .ok (some (.streamBody hasRState autoDestroy), true, !(hasRState && autoDestroy))
  | .strV s => .ok (if s.length ≠ 0 then some (.bufferFromStr s) else none, false, false)
  | .bytesV l => .ok (if l.length ≠ 0 then some (.bufferFromBytes l) else none, false, false)
  | .formDataV => .ok (some .formDataBody, false, false)
  | .iterableV => .ok (some .iterableBody, false, false)
  | .blobV => .ok (some .blobBody, false, false)
  | .otherV => .error (.invalidArgument
      "Body must be a valid type (string, Buffer, Readable stream, iterable, or async iterable).")

/-- The `query` construction argument when truthy: a non-null object (its
string-to-string entries) or a truthy non-object value. -/
inductive QueryInput
  | obj (q : List (String × String))
  | nonObject
deriving Repr, DecidableEq

/-- Modelled from the spec: node's `querystring.stringify` (an external
stdlib collaborator), restricted to string-to-string maps and without
percent-encoding, which no claim input needs; an empty object stringifies to
the empty string. -/
def stringifyQuery (q : List (String × String)) : String :=
  String.intercalate "&" (q.map (fun p => p.1 ++ "=" ++ p.2))

/-- src/lib/core/util.js `serializePathWithQuery(url, queryParams)`: rejects a
non-object query, throws a plain `Error` when the url already contains `?` or
`#`, otherwise appends `?` and the stringified query when non-empty. -/
def serializePathWithQuery (url : String) (queryParams : QueryInput) : Except JSError String :=
  match queryParams with
  | .nonObject => .error (.invalidArgument "Query parameters must be an object.")
  | .obj q =>
    if jsIncludesChar url '?' || jsIncludesChar url '#' then
      .error (.genericError "Query params cannot be passed when URL already contains \"?\".")
    else
      let stringified := stringifyQuery q
      .ok (if stringified != "" then url ++ "?" ++ stringified else url)

/-- Modelled from the spec: `invalidPathRegex` is required by
`Request.validateInputs` but defined in a module outside src/.  Per the spec
(§8, Example 4) a path containing a space fails the pattern; modelled as
rejecting characters outside the printable Latin-1 range `0x21`-`0xff`. -/
def invalidPathTest (s : String) : Bool :=
  s.data.any (fun c => decide (c.toNat < 0x21 ∨ 0xff < c.toNat))

/-- Modelled from the spec: `headerNameLowerCasedRecord`, the static
case-normalization table of common header names (defined in
src/lib/core/constants, outside src/).  It maps each covered name, in its
canonical capitalization and in lowercase, to the lowercase form; lookups of
other names miss and fall back to generic lowercasing at the call sites. -/
def headerNameLowerCasedRecord (s : String) : Option String :=
  match s with
  | "Content-Length" | "content-length" => some "content-length"
  | "Content-Type" | "content-type" => some "content-type"
  | "Content-Disposition" | "content-disposition" => some "content-disposition"
  | "Host" | "host" => some "host"
  | "Connection" | "connection" => some "connection"
  | "Transfer-Encoding" | "transfer-encoding" => some "transfer-encoding"
  | "Keep-Alive" | "keep-alive" => some "keep-alive"
  | "Upgrade" | "upgrade" => some "upgrade"
  | "Expect" | "expect" => some "expect"
  | _ => none

/-- The canonical (lowercased) header name computed at the top of
`addHeader`: `headerNameLowerCasedRecord[key] || key.toLowerCase()`. -/
def canonicalHeaderName (key : String) : String :=
  (headerNameLowerCasedRecord key).getD (jsToLowerCase key)

/-- src/lib/core/util.js `normalizedMethodRecords`: the base table of
normalized methods plus the `patch`/`PATCH` additions. -/
def normalizedMethodRecords (m : String) : Option String :=
  match m with
  | "DELETE" => some "DELETE"
  | "GET" => some "GET"
  | "HEAD" => some "HEAD"
  | "OPTIONS" => some "OPTIONS"
  | "POST" => some "POST"
  | "PUT" => some "PUT"
  | "PATCH" => some "PATCH"
  | "patch" => some "patch"
  | _ => none

/-- The construction options object (§6).  The modelled domain takes `path`
and `method` as strings, `upgrade` as an optional string, timeouts as
optional integers and `reset`/`idempotent`/`blocking`/`expectContinue` as
optional booleans, so the `typeof`-mismatch throws of `validateInputs` that
guard other runtime types are vacuous here; `throwOnError` keeps its
any-non-null rejection. -/
structure Options where
  path : String
  method : String
  query : Option QueryInput := none
  headers : HeadersInput := .noneH
  body : Option BodyVal := none
  upgrade : Option String := none
  headersTimeout : Option Int := none
  bodyTimeout : Option Int := none
  idempotent : Option Bool := none
  blocking : Option Bool := none
  reset : Option Bool := none
  expectContinue : Option Bool := none
  throwOnError : Option Unit := none
deriving Repr, DecidableEq

/-- `Request.checkTimeoutValidity`: non-null and (not finite or negative).
Integers are always finite, so only negativity can fail in the model. -/
def checkTimeoutBad : Option Int → Bool
  | some n => decide (n < 0)
  | none => false

/-- `Request.validateInputs(options)`, checks in source order. -/
def validateInputs (o : Options) : Except JSError Unit :=
  if !(jsStartsWith o.path "/" || jsStartsWith o.path "http://" ||
       jsStartsWith o.path "https://" || o.method == "CONNECT") then
    .error (.invalidArgument "Path must be an absolute URL or start with a slash.")
  else if invalidPathTest o.path then
    .error (.invalidArgument "Invalid request path.")
  else if (normalizedMethodRecords o.method).isNone && !isValidHTTPToken o.method then
    .error (.invalidArgument "Invalid request method.")
  else if checkTimeoutBad o.headersTimeout then
    .error (.invalidArgument "Invalid headersTimeout.")
  else if checkTimeoutBad o.bodyTimeout then
    .error (.invalidArgument "Invalid bodyTimeout.")
  else
    match o.throwOnError with
    | some _ => .error (.invalidArgument "Invalid throwOnError.")
    | none => .ok ()

/-- The request descriptor plus its private lifecycle state: `abortCap`
models the presence of the private `#abort` capability, `deferredError` the
private `#error` slot, `errorListener`/`endListener` whether the body-stream
`error`/`end` listeners are currently attached, and `headersMap` the private
`#headers` insertion-ordered map. -/
structure Request where
  headersTimeout : Option Int
  bodyTimeout : Option Int
  method : String
  body : Option BodyOut
  completed : Bool
  aborted : Bool
  upgrade : Option String
  path : String
  origin : String
  idempotent : Bool
  blocking : Bool
  reset : Option Bool
  host : Option String
  contentLength : Option Int
  contentType : Option HeaderValue
  headersMap : List (String × HeaderValue)
  handler : Handler
  abortCap : Bool
  deferredError : Option JSError
  errorListener : Bool
  endListener : Bool
deriving Repr, DecidableEq

/-- JS `Map.prototype.set`: overwrite in place when the key exists, else
append in insertion order. -/
def mapSet : List (String × HeaderValue) → String → HeaderValue → List (String × HeaderValue)
  | [], k, v => [(k, v)]
  | (k', v') :: rest, k, v =>
      if k' == k then (k, v) :: rest else (k', v') :: mapSet rest k v

/-- `Request.assignHeader(headerName, value, originalKey)`: the dispatch on
the canonical name, translated case by case from the source switch. -/
def assignHeader (headerName : String) (value : HeaderValue) (originalKey : String)
    (r : Request) : Except JSError Request :=
  if headerName == "host" then
    .ok (match r.host, value with
         | none, .str s => { r with host := some s }
         | _, _ => r)
  else if headerName == "content-length" then
    match r.contentLength with
    | some _ => .ok r
    | none =>
      match parseIntJS (headerValToString value) with
      | none => .error (.invalidArgument "Invalid content-length header.")
      | some n => .ok { r with contentLength := some n }
  else if headerName == "content-type" then
    .ok (match r.contentType with
         | some _ => r
         | none => { r with contentType := some value,
                            headersMap := mapSet r.headersMap originalKey value })
  else if headerName == "transfer-encoding" || headerName == "keep-alive" ||
          headerName == "upgrade" then
    .error (.invalidArgument ("Invalid " ++ headerName ++ " header."))
  else if headerName == "connection" then
    match value with
    | .str s =>
      let connValue := jsToLowerCase s
      if connValue == "close" then .ok { r with reset := some true }
      else if connValue == "keep-alive" then .ok r
      else .error (.invalidArgument "Invalid connection header")
    | .arr _ => .error (.invalidArgument "Invalid connection header")
  else if headerName == "expect" then
    .error (.notSupported "Expect header not supported.")
  else
    .ok { r with headersMap := mapSet r.headersMap originalKey value }

/-- The body of `addHeader` past the `undefined` early return: canonicalize
and validate the key, normalize/validate the value (arrays through
`mapArrayElem`, scalar strings through `isValidHeaderValue`, `null` to the
empty string), then dispatch through `assignHeader`.  The `undef` case is
unreachable (guarded in `addHeader`). -/
def addHeaderDefined (key : String) (value : JSVal) (r : Request) : Except JSError Request :=
  let headerName := canonicalHeaderName key
  if (headerNameLowerCasedRecord headerName).isNone && !isValidHTTPToken headerName then
    .error (.invalidArgument "Invalid header key.")
  else
    match value with
    | .arr l => assignHeader headerName (.arr (l.map mapArrayElem)) key r
    | .str s =>
        if !isValidHeaderValue s then
          .error (.invalidArgument ("Invalid " ++ key ++ " header."))
        else assignHeader headerName (.str s) key r
    | .null => assignHeader headerName (.str "") key r
    | .undef => .ok r

/-- `Request.addHeader(key, value)`: `undefined` values are skipped (no-op),
everything else goes through `addHeaderDefined`. -/
def addHeader (key : String) (value : JSVal) (r : Request) : Except JSError Request :=
  match value with
  | .undef => .ok r
  | v => addHeaderDefined key v r

/-- Folds `addHeader` over a list of name/value entries, stopping at the
first thrown error. -/
def addHeaderList : List (String × JSVal) → Request → Except JSError Request
  | [], r => .ok r
  | (k, v) :: rest, r =>
      match addHeader k v r with
      | .error e => .error e
      | .ok r' => addHeaderList rest r'

/-- `Request.processHeaders(headers)` over the modelled input shapes. -/
def processHeaders (hs : HeadersInput) (r : Request) : Except JSError Request :=
  match hs with
  | .noneH => .ok r
  | .arrH entries => addHeaderList entries r
  | .objH entries => addHeaderList entries r
  | .invalidH => .error (.invalidArgument "Headers must be an object or an array.")

/-- The request record as it stands after the field assignments of the
constructor body, before `processHeaders` runs. -/
def initRequest (origin : String) (o : Options) (h : Handler)
    (bodyOut : Option BodyOut) (errL endL : Bool) (path : String) : Request :=
  { headersTimeout := o.headersTimeout
    bodyTimeout := o.bodyTimeout
    method := o.method
    body := bodyOut
    completed := false
    aborted := false
    upgrade := match o.upgrade with
               | some s => if s == "" then none else some s
               | none => none
    path := path
    origin := origin
    idempotent := o.idempotent.getD (o.method == "HEAD" || o.method == "GET")
    blocking := o.blocking.getD (o.method != "HEAD")
    reset := o.reset
    host := none
    contentLength := none
    contentType := none
    headersMap := []
    handler := h
    abortCap := false
    deferredError := none
    errorListener := errL
    endListener := endL }

/-- Constructor line 13: `options.body ? this.processBody(options.body) : null`. -/
def bodyStep (o : Options) : Except JSError (Option BodyOut × Bool × Bool) :=
  match o.body with
  | some b => if bodyTruthy b then processBodyVal b else .ok (none, false, false)
  | none => .ok (none, false, false)

/-- Constructor line 17: `options.query ? serializePathWithQuery(options.path,
options.query) : options.path`. -/
def pathStep (o : Options) : Except JSError String :=
  match o.query with
  | some qi => serializePathWithQuery o.path qi
  | none => .ok o.path

/-- The `Request` constructor: `validateInputs`, body classification
(`bodyStep`), path/query serialization (`pathStep`), field initialization,
`processHeaders`, `assertRequestHandler` — in source order, failing
permanently on the first thrown error.  The source invokes
`serializePathWithQuery` and `assertRequestHandler` through `this.`; their
bodies are the src/lib/core/util.js functions embedded above. -/
def construct (origin : String) (o : Options) (h : Handler) : Except JSError Request :=
  match validateInputs o with
  | .error e => .error e
  | .ok _ =>
    match bodyStep o with
    | .error e => .error e
    | .ok (bodyOut, errL, endL) =>
      match pathStep o with
      | .error e => .error e
      | .ok path =>
        match processHeaders o.headers (initRequest origin o h bodyOut errL endL path) with
        | .error e => .error e
        | .ok r =>
          match assertRequestHandler h o.method o.upgrade with
          | .error e => .error e
          | .ok _ => .ok r

/-- An observable action of a lifecycle step: a handler method invocation or
an invocation of a transport abort capability. -/
inductive Event
  | onConnect
  | onBodySent
  | onRequestSent
  | onResponseStarted
  | onHeaders
  | onData
  | onUpgrade
  | onComplete
  | onError (e : JSError)
  | abortCalled (e : JSError)
deriving Repr, DecidableEq

/-- Result of a lifecycle method call: the request state after all mutations
(mutations on the heap-allocated request persist even when the call throws),
the handler/abort invocations it performed, and the exception it propagated
to the transport caller, if any. -/
structure StepResult where
  state : Request
  events : List Event
  thrown : Option JSError
deriving Repr, DecidableEq

/-- `Request.invokeHandlerMethod(method, ...args)`: missing method is a no-op;
a present method is invoked; a synchronously thrown error is caught, and the
catch block runs `this.abort(err)` — the class declares only the private
field `#abort` and never a public `abort` property, so `this.abort` is
`undefined` and the call itself raises a `TypeError` that propagates. -/
def invokeHandlerMethod (b : HandlerBehavior) (ev : Event) : List Event × Option JSError :=
  match b with
  | .absent => ([], none)
  | .returns => ([ev], none)
  | .throws _ => ([ev], some (.typeError "this.abort is not a function"))

/-- A lifecycle entry point invoked by the transport layer (or, for
`streamError`, by the body stream's `error` event). -/
inductive LifeOp
  | connect
  | bodySent
  | requestSent
  | responseStarted
  | headersEv
  | dataEv
  | upgradeEv
  | complete
  | errorEv (e : JSError)
  | streamError (e : JSError)
deriving Repr, DecidableEq

/-- `Request.onFinally()` / `cleanupStreamListeners`: detach both body-stream
listeners. -/
def onFinallyClean (s : Request) : Request :=
  { s with errorListener := false, endListener := false }

/-- One lifecycle step, translated method by method from the source:
`onConnect` (asserts, deferred-error replay, capability store),
`onBodySent`/`onRequestSent`/`onResponseStarted` (unconditional forward),
`onHeaders`/`onData`/`onUpgrade` (asserts then forward), `onComplete`
(finalize, asserts, set `completed`, forward), `onError` (finalize,
already-aborted no-op, set `aborted`, forward), and the `setupStream` error
listener `(err) => this.#abort ? this.#abort(err) : this.#error = err`,
which only fires while attached. -/
def step (op : LifeOp) (s : Request) : StepResult :=
  match op with
  | .connect =>
      if s.aborted then ⟨s, [], some (.assertionError "!this.aborted")⟩
      else if s.completed then ⟨s, [], some (.assertionError "!this.completed")⟩
      else
        match s.deferredError with
        | some e => ⟨s, [.abortCalled e], none⟩
        | none =>
            let p := invokeHandlerMethod s.handler.onConnect .onConnect
            ⟨{ s with abortCap := true }, p.1, p.2⟩
  | .bodySent =>
      let p := invokeHandlerMethod s.handler.onBodySent .onBodySent
      ⟨s, p.1, p.2⟩
  | .requestSent =>
      let p := invokeHandlerMethod s.handler.onRequestSent .onRequestSent
      ⟨s, p.1, p.2⟩
  | .responseStarted =>
      let p := invokeHandlerMethod s.handler.onResponseStarted .onResponseStarted
      ⟨s, p.1, p.2⟩
  | .headersEv =>
      if s.aborted then ⟨s, [], some (.assertionError "!this.aborted")⟩
      else if s.completed then ⟨s, [], some (.assertionError "!this.completed")⟩
      else
        let p := invokeHandlerMethod s.handler.onHeaders .onHeaders
        ⟨s, p.1, p.2⟩
  | .dataEv =>
      if s.aborted then ⟨s, [], some (.assertionError "!this.aborted")⟩
      else if s.completed then ⟨s, [], some (.assertionError "!this.completed")⟩
      else
        let p := invokeHandlerMethod s.handler.onData .onData
        ⟨s, p.1, p.2⟩
  | .upgradeEv =>
      if s.aborted then ⟨s, [], some (.assertionError "!this.aborted")⟩
      else if s.completed then ⟨s, [], some (.assertionError "!this.completed")⟩
      else
        let p := invokeHandlerMethod s.handler.onUpgrade .onUpgrade
        ⟨s, p.1, p.2⟩
  | .complete =>
      let s1 := onFinallyClean s
      if s1.aborted then ⟨s1, [], some (.assertionError "!this.aborted")⟩
      else if s1.completed then ⟨s1, [], some (.assertionError "!this.completed")⟩
      else
        let s2 := { s1 with completed := true }
        let p := invokeHandlerMethod s.handler.onComplete .onComplete
        ⟨s2, p.1, p.2⟩
  | .errorEv e =>
      let s1 := onFinallyClean s
      if s1.aborted then ⟨s1, [], none⟩
      else
        let s2 := { s1 with aborted := true }
        let p := invokeHandlerMethod s.handler.onError (.onError e)
        ⟨s2, p.1, p.2⟩
  | .streamError e =>
      if !s.errorListener then ⟨s, [], none⟩
      else if s.abortCap then ⟨s, [.abortCalled e], none⟩
      else ⟨{ s with deferredError := some e }, [], none⟩

/-- Threads a sequence of lifecycle calls through the request state. -/
def runOps (ops : List LifeOp) (s : Request) : Request :=
  ops.foldl (fun a op => (step op a).state) s

/-- A handler supplying the five standard methods (the default slots). -/
def h0 : Handler := {}

/-- A handler whose `onData` throws. -/
def hThrow : Handler := { h0 with onData := .throws (.external 7) }

/-- Example 1 options: `path="/x"`, `method="GET"`, nothing else. -/
def optsGET : Options := { path := "/x", method := "GET" }

/-- The request produced by constructing with `optsGET` (checked by
`decide`/`rfl` in the theorems below). -/
def reqGET : Request :=
  { headersTimeout := none, bodyTimeout := none, method := "GET", body := none,
    completed := false, aborted := false, upgrade := none, path := "/x",
    origin := "http://example.com", idempotent := true, blocking := true,
    reset := none, host := none, contentLength := none, contentType := none,
    headersMap := [], handler := h0, abortCap := false, deferredError := none,
    errorListener := false, endListener := false }

/-- `reqGET` after the transport stored an abort capability, with a handler
whose `onData` throws. -/
def reqConnected : Request := { reqGET with handler := hThrow, abortCap := true }

/-- A request with a live body-stream error listener and no abort capability
(as after constructing with a stream body, pre-connect). -/
def reqStream : Request :=
  { reqGET with
    body := some (.streamBody false false),
    errorListener := true,
    endListener := true }

/-- Example 2 options: `headers=["Content-Length","5","Content-Length","10"]`. -/
def optsCL510 : Options :=
  { path := "/x", method := "GET",
    headers := .arrH [("Content-Length", .str "5"), ("Content-Length", .str "10")] }

/-- The request produced by constructing with `optsCL510`. -/
def reqCL510 : Request := { reqGET with contentLength := some 5 }

/-- Options carrying a negative `content-length` header value. -/
def optsCLneg : Options :=
  { path := "/x", method := "GET", headers := .arrH [("Content-Length", .str "-5")] }

/-- The request produced by constructing with `optsCLneg`. -/
def reqCLneg : Request := { reqGET with contentLength := some (-5) }

/-- Options carrying a forbidden `Transfer-Encoding` header. -/
def optsTE : Options :=
  { path := "/x", method := "GET", headers := .arrH [("Transfer-Encoding", .str "chunked")] }

/-- Options with a query object and a path already containing `?`. -/
def optsQbad : Options :=
  { path := "/a?b", method := "GET", query := some (.obj [("x", "y")]) }

/-- Options with a query object and a clean path. -/
def optsQgood : Options :=
  { path := "/a", method := "GET", query := some (.obj [("x", "y")]) }

/-- Whether a lifecycle call propagated a node assertion failure to its
caller (a failed `assert(!this.aborted)` / `assert(!this.completed)`
precondition). -/
def isAssertionThrown : Option JSError → Bool
  | some (.assertionError _) => true
  | _ => false

/-- The four canonical names rejected unconditionally by `assignHeader`. -/
def forbiddenName (n : String) : Prop :=
  n = "transfer-encoding" ∨ n = "keep-alive" ∨ n = "upgrade" ∨ n = "expect"

/-- The headers construction input contains the entry `(k, v)`. -/
def headersContains (hs : HeadersInput) (k : String) (v : JSVal) : Prop :=
  match hs with
  | .arrH l => (k, v) ∈ l
  | .objH l => (k, v) ∈ l
  | _ => False

/-- A list is a prefix of its own extension. -/
theorem listStartsWith_append (p q : List Char) : listStartsWith p (p ++ q) = true := by
  induction p with
  | nil => rfl
  | cons c cs ih => simp [listStartsWith, ih]

/-- Every message of the shape `Invalid <mid> header.` is of the spec's
`InvalidHeader` kind, whatever `<mid>` is. -/
theorem isInvalidHeaderError_concat (mid : String) :
    isInvalidHeaderError (.invalidArgument ("Invalid " ++ mid ++ " header.")) = true := by
  simp [isInvalidHeaderError, jsStartsWith, jsEndsWithHeader, String.data_append,
    listStartsWith, listStartsWith_append]

/-- A successful range-regex match always has a non-empty second digit group
(the regex spells the end group as mandatory `(\d+)`). -/
theorem execRange_d2_ne {s : String} {d1 d2 : List Char} {od3 : Option (List Char)}
    (h : execRangeRegex s = some (d1, d2, od3)) : d2.isEmpty = false := by
  unfold execRangeRegex at h
  dsimp only at h
  repeat' split at h
  all_goals (try exact Option.noConfusion h)
  all_goals
    (injection h with hh
     injection hh with hA hBC
     injection hBC with hB hC
     subst hB
     simp_all)

/-- Unfolding of `assignHeader` at the canonical name `content-length`. -/
theorem assignHeader_cl_eq (v : HeaderValue) (k : String) (r : Request) :
    assignHeader "content-length" v k r =
      (match r.contentLength with
       | some _ => .ok r
       | none =>
         match parseIntJS (headerValToString v) with
         | none => .error (.invalidArgument "Invalid content-length header.")
         | some n => .ok { r with contentLength := some n }) := rfl

/-- A successful `assignHeader` never changes the `path` field. -/
theorem assignHeader_path {n k : String} {v : HeaderValue} {r r' : Request}
    (h : assignHeader n v k r = .ok r') : r'.path = r.path := by
  unfold assignHeader at h
  repeat' (first | split at h | dsimp only at h)
  all_goals first
    | exact Except.noConfusion h
    | (injection h with h; subst h; rfl)

/-- A successful `addHeader` never changes the `path` field. -/
theorem addHeader_path {k : String} {v : JSVal} {r r' : Request}
    (h : addHeader k v r = .ok r') : r'.path = r.path := by
  unfold addHeader addHeaderDefined at h
  repeat' (first | split at h | dsimp only at h)
  all_goals first
    | exact Except.noConfusion h
    | (injection h with h; subst h; rfl)
    | exact assignHeader_path h

/-- A successful `addHeaderList` never changes the `path` field. -/
theorem addHeaderList_path : ∀ (l : List (String × JSVal)) (r r' : Request),
    addHeaderList l r = .ok r' → r'.path = r.path := by
  intro l
  induction l with
  | nil =>
      intro r r' h
      injection h with h
      subst h
      rfl
  | cons p rest ih =>
      intro r r' h
      obtain ⟨k, v⟩ := p
      unfold addHeaderList at h
      cases hah : addHeader k v r with
      | error e => rw [hah] at h; exact Except.noConfusion h
      | ok rmid =>
          rw [hah] at h
          dsimp only at h
          exact (ih rmid r' h).trans (addHeader_path hah)

/-- Successful header processing never changes the `path` field. -/
theorem processHeaders_path {hs : HeadersInput} {r r' : Request}
    (h : processHeaders hs r = .ok r') : r'.path = r.path := by
  cases hs with
  | noneH =>
      unfold processHeaders at h
      injection h with h
      subst h
      rfl
  | arrH l =>
      unfold processHeaders at h
      exact addHeaderList_path l r r' h
  | objH l =>
      unfold processHeaders at h
      exact addHeaderList_path l r r' h
  | invalidH => exact Except.noConfusion h

/-- For every non-undefined value supplied under a forbidden canonical header
name, `addHeader` throws: `NotSupported` for `expect` with a value passing
validation, and an `Invalid ... header` `InvalidArgumentError` otherwise. -/
theorem addHeader_forbidden (key : String) (v : JSVal) (r : Request)
    (hf : forbiddenName (canonicalHeaderName key)) (hv : v ≠ .undef) :
    ∃ e, addHeader key v r = .error e ∧
      (canonicalHeaderName key ≠ "expect" → isInvalidHeaderError e = true) ∧
      (canonicalHeaderName key = "expect" →
        e = .notSupported "Expect header not supported." ∨
        (isInvalidHeaderError e = true ∧ ∃ s, v = .str s ∧ isValidHeaderValue s = false)) := by
  have hf' := hf
  unfold forbiddenName at hf'
  rcases hf' with hn | hn | hn | hn
  · cases v with
    | undef => exact absurd rfl hv
    | null =>
        refine ⟨.invalidArgument "Invalid transfer-encoding header.", ?_,
          fun _ => rfl, fun hx => absurd (hn.symm.trans hx) (by decide)⟩
        simp only [addHeader, addHeaderDefined]
        rw [hn]
        rfl
    | arr l =>
        refine ⟨.invalidArgument "Invalid transfer-encoding header.", ?_,
          fun _ => rfl, fun hx => absurd (hn.symm.trans hx) (by decide)⟩
        simp only [addHeader, addHeaderDefined]
        rw [hn]
        rfl
    | str s =>
        cases hval : isValidHeaderValue s
        · refine ⟨.invalidArgument ("Invalid " ++ key ++ " header."), ?_,
            fun _ => isInvalidHeaderError_concat key,
            fun hx => absurd (hn.symm.trans hx) (by decide)⟩
          simp only [addHeader, addHeaderDefined]
          rw [hn]
          simp [hval]
          intro hrec
          exact absurd hrec (by decide)
        · refine ⟨.invalidArgument "Invalid transfer-encoding header.", ?_,
            fun _ => rfl, fun hx => absurd (hn.symm.trans hx) (by decide)⟩
          simp only [addHeader, addHeaderDefined]
          rw [hn]
          simp [hval]
          rfl
  · cases v with
    | undef => exact absurd rfl hv
    | null =>
        refine ⟨.invalidArgument "Invalid keep-alive header.", ?_,
          fun _ => rfl, fun hx => absurd (hn.symm.trans hx) (by decide)⟩
        simp only [addHeader, addHeaderDefined]
        rw [hn]
        rfl
    | arr l =>
        refine ⟨.invalidArgument "Invalid keep-alive header.", ?_,
          fun _ => rfl, fun hx => absurd (hn.symm.trans hx) (by decide)⟩
        simp only [addHeader, addHeaderDefined]
        rw [hn]
        rfl
    | str s =>
        cases hval : isValidHeaderValue s
        · refine ⟨.invalidArgument ("Invalid " ++ key ++ " header."), ?_,
            fun _ => isInvalidHeaderError_concat key,
            fun hx => absurd (hn.symm.trans hx) (by decide)⟩
          simp only [addHeader, addHeaderDefined]
          rw [hn]
          simp [hval]
          intro hrec
          exact absurd hrec (by decide)
        · refine ⟨.invalidArgument "Invalid keep-alive header.", ?_,
            fun _ => rfl, fun hx => absurd (hn.symm.trans hx) (by decide)⟩
          simp only [addHeader, addHeaderDefined]
          rw [hn]
          simp [hval]
          rfl
  · cases v with
    | undef => exact absurd rfl hv
    | null =>
        refine ⟨.invalidArgument "Invalid upgrade header.", ?_,
          fun _ => rfl, fun hx => absurd (hn.symm.trans hx) (by decide)⟩
        simp only [addHeader, addHeaderDefined]
        rw [hn]
        rfl
    | arr l =>
        refine ⟨.invalidArgument "Invalid upgrade header.", ?_,
          fun _ => rfl, fun hx => absurd (hn.symm.trans hx) (by decide)⟩
        simp only [addHeader, addHeaderDefined]
        rw [hn]
        rfl
    | str s =>
        cases hval : isValidHeaderValue s
        · refine ⟨.invalidArgument ("Invalid " ++ key ++ " header."), ?_,
            fun _ => isInvalidHeaderError_concat key,
            fun hx => absurd (hn.symm.trans hx) (by decide)⟩
          simp only [addHeader, addHeaderDefined]
          rw [hn]
          simp [hval]
          intro hrec
          exact absurd hrec (by decide)
        · refine ⟨.invalidArgument "Invalid upgrade header.", ?_,
            fun _ => rfl, fun hx => absurd (hn.symm.trans hx) (by decide)⟩
          simp only [addHeader, addHeaderDefined]
          rw [hn]
          simp [hval]
          rfl
  · cases v with
    | undef => exact absurd rfl hv
    | null =>
        refine ⟨.notSupported "Expect header not supported.", ?_,
          fun hx => absurd hn hx, fun _ => Or.inl rfl⟩
        simp only [addHeader, addHeaderDefined]
        rw [hn]
        rfl
    | arr l =>
        refine ⟨.notSupported "Expect header not supported.", ?_,
          fun hx => absurd hn hx, fun _ => Or.inl rfl⟩
        simp only [addHeader, addHeaderDefined]
        rw [hn]
        rfl
    | str s =>
        cases hval : isValidHeaderValue s
        · refine ⟨.invalidArgument ("Invalid " ++ key ++ " header."), ?_,
            fun hx => absurd hn hx,
            fun _ => Or.inr ⟨isInvalidHeaderError_concat key, s, rfl, hval⟩⟩
          simp only [addHeader, addHeaderDefined]
          rw [hn]
          simp [hval]
          intro hrec
          exact absurd hrec (by decide)
        · refine ⟨.notSupported "Expect header not supported.", ?_,
            fun hx => absurd hn hx, fun _ => Or.inl rfl⟩
          simp only [addHeader, addHeaderDefined]
          rw [hn]
          simp [hval]
          rfl

/-- Folding `addHeader` over a list containing a forbidden entry with a
defined value always throws. -/
theorem addHeaderList_forbidden : ∀ (l : List (String × JSVal)) (r : Request)
    (k : String) (v : JSVal), (k, v) ∈ l → forbiddenName (canonicalHeaderName k) →
    v ≠ .undef → ∃ e, addHeaderList l r = .error e := by
  intro l
  induction l with
  | nil => intro r k v hm _ _; exact absurd hm (List.not_mem_nil _)
  | cons p rest ih =>
      intro r k v hm hf hv
      obtain ⟨k', v'⟩ := p
      rcases List.mem_cons.mp hm with he | ht
      · injection he with hk hv'
        subst hk
        subst hv'
        obtain ⟨e, he1, -, -⟩ := addHeader_forbidden k v r hf hv
        exact ⟨e, by simp [addHeaderList, he1]⟩
      · cases hah : addHeader k' v' r with
        | error e => exact ⟨e, by simp [addHeaderList, hah]⟩
        | ok r2 =>
            obtain ⟨e, he⟩ := ih r2 k v ht hf hv
            exact ⟨e, by simp [addHeaderList, hah, he]⟩

/-- `processHeaders` on an input containing a forbidden entry with a defined
value always throws, whatever request state it starts from. -/
theorem processHeaders_forbidden {hs : HeadersInput} {k : String} {v : JSVal}
    (hm : headersContains hs k v) (hf : forbiddenName (canonicalHeaderName k))
    (hv : v ≠ .undef) : ∀ r, ∃ e, processHeaders hs r = .error e := by
  intro r
  cases hs with
  | noneH => exact absurd hm (by simp [headersContains])
  | arrH l => exact addHeaderList_forbidden l r k v hm hf hv
  | objH l => exact addHeaderList_forbidden l r k v hm hf hv
  | invalidH => exact ⟨.invalidArgument "Headers must be an object or an array.", rfl⟩

/-- If header processing always throws on the given options, construction can
never return a request. -/
theorem construct_no_ok_of_headers {o : Options}
    (hph : ∀ r0, ∃ e, processHeaders o.headers r0 = .error e)
    (origin : String) (hd : Handler) : ∀ r', construct origin o hd ≠ .ok r' := by
  intro r' hok
  cases hv : validateInputs o with
  | error e => simp [construct, hv] at hok
  | ok u =>
    cases hb : bodyStep o with
    | error e => simp [construct, hv, hb] at hok
    | ok t =>
      obtain ⟨bo, eL, nL⟩ := t
      cases hp : pathStep o with
      | error e => simp [construct, hv, hb, hp] at hok
      | ok pth =>
        obtain ⟨e0, hpe⟩ := hph (initRequest origin o hd bo eL nL pth)
        simp [construct, hv, hb, hp, hpe] at hok

/-- Claim C1 (counterexample): the invariant "`completed` and `aborted` are
never simultaneously true" fails on a constructed request: calling
`onComplete` and then `onError` leaves a state with both flags true. -/
theorem claim1_counterexample :
    construct "http://example.com" optsGET h0 = .ok reqGET ∧
    (runOps [LifeOp.complete, LifeOp.errorEv (.external 0)] reqGET).completed = true ∧
    (runOps [LifeOp.complete, LifeOp.errorEv (.external 0)] reqGET).aborted = true :=
  ⟨rfl, rfl, rfl⟩

/-- Claim C1 (amended): for every lifecycle call, neither flag ever reverts
from true to false; once either flag is true, `onComplete`, `onHeaders`,
`onData` and `onUpgrade` forward nothing to the handler and fail their
assertion precondition; and a state with both flags true arises only from an
`onError` call on a request that was already completed but not aborted. -/
theorem claim1_amended : ∀ (op : LifeOp) (s : Request),
    (s.completed = true → (step op s).state.completed = true) ∧
    (s.aborted = true → (step op s).state.aborted = true) ∧
    ((s.completed = true ∨ s.aborted = true) →
      (op = .complete ∨ op = .headersEv ∨ op = .dataEv ∨ op = .upgradeEv) →
      (step op s).events = [] ∧ isAssertionThrown (step op s).thrown = true) ∧
    ((step op s).state.completed = true → (step op s).state.aborted = true →
      (s.completed = true ∧ s.aborted = true) ∨
      (∃ e, op = .errorEv e ∧ s.completed = true ∧ s.aborted = false)) := by
  intro op s
  cases op <;>
    cases hc : s.completed <;>
      cases ha : s.aborted <;>
        simp only [step, onFinallyClean, invokeHandlerMethod] <;>
          (repeat' split) <;>
            simp_all [isAssertionThrown]

/-- Claim C1 (witness): the amended theorem applied after `onComplete` on the
concrete GET request. -/
theorem claim1_witness :
    (step (.errorEv (.external 0)) (runOps [LifeOp.complete] reqGET)).state.completed = true ∧
    (step .dataEv (runOps [LifeOp.complete] reqGET)).events = [] ∧
    isAssertionThrown (step .dataEv (runOps [LifeOp.complete] reqGET)).thrown = true := by
  refine ⟨(claim1_amended (.errorEv (.external 0)) (runOps [LifeOp.complete] reqGET)).1 rfl,
    ?_, ?_⟩
  · exact ((claim1_amended .dataEv (runOps [LifeOp.complete] reqGET)).2.2.1 (Or.inl rfl)
      (Or.inr (Or.inr (Or.inl rfl)))).1
  · exact ((claim1_amended .dataEv (runOps [LifeOp.complete] reqGET)).2.2.1 (Or.inl rfl)
      (Or.inr (Or.inr (Or.inl rfl)))).2

/-- Claim C2 (code bug, observed): an array header value whose element
contains CR fails `isValidHeaderValue`, yet `addHeader` succeeds and stores
the element unchanged in the header table — the array branch computes the
validity check and discards its result. -/
theorem claim2_observed :
    isValidHeaderValue "bad\rvalue" = false ∧
    addHeader "xtest" (.arr [some "bad\rvalue"]) reqGET =
      .ok { reqGET with headersMap := [("xtest", .arr ["bad\rvalue"])] } :=
  ⟨rfl, rfl⟩

/-- Claim C3 (code bug, observed): on a connected request whose handler's
`onData` throws, the lifecycle call does not abort the request: the catch
block's `this.abort(err)` calls the undefined public `abort` property, so a
`TypeError` propagates to the transport caller, no abort capability is
invoked, and the request is left un-aborted. -/
theorem claim3_observed :
    step .dataEv reqConnected =
      ⟨reqConnected, [.onData], some (.typeError "this.abort is not a function")⟩ ∧
    reqConnected.handler.onData = .throws (.external 7) ∧
    reqConnected.aborted = false ∧
    (step .dataEv reqConnected).state.aborted = false :=
  ⟨rfl, rfl, rfl, rfl⟩

/-- Claim C4 (counterexample): the stored `contentLength` need not be
non-negative — a `content-length` header of `"-5"` is accepted and stored as
the negative integer `-5`. -/
theorem claim4_counterexample :
    construct "http://example.com" optsCLneg h0 = .ok reqCLneg ∧
    reqCLneg.contentLength = some (-5) ∧ (-5 : Int) < 0 :=
  ⟨rfl, rfl, by norm_num⟩

set_option maxRecDepth 8192 in
/-- Claim C4 (amended): content-length processing is first-wins and
validating — with `contentLength` unset, assigning throws `InvalidHeader`
exactly when `parseInt` yields a non-finite number (`NaN` from a digit-free
value, or `Infinity` when the magnitude rounds past the double range), and
otherwise stores the integral double `parseInt` produced (possibly negative,
exact below `2^53` and correctly rounded above); with `contentLength`
already set, any later `content-length` header is ignored without error; the
example headers `["Content-Length","5","Content-Length","10"]` construct
successfully with `contentLength = 5`.  The last two conjuncts pin the
double semantics: 309 nines overflow to `Infinity` (hence throw), and
`2^53 + 1` is stored rounded to `2^53`. -/
theorem claim4_amended : ∀ (v : HeaderValue) (k : String) (r : Request) (n : Int),
    (r.contentLength = none →
      ((assignHeader "content-length" v k r =
          .error (.invalidArgument "Invalid content-length header.")) ↔
        parseIntJS (headerValToString v) = none) ∧
      (parseIntJS (headerValToString v) = some n →
        assignHeader "content-length" v k r = .ok { r with contentLength := some n })) ∧
    (r.contentLength = some n → assignHeader "content-length" v k r = .ok r) ∧
    construct "http://example.com" optsCL510 h0 = .ok reqCL510 ∧
    reqCL510.contentLength = some 5 ∧
    parseIntJS (String.mk (List.replicate 309 '9')) = none ∧
    parseIntJS "9007199254740993" = some 9007199254740992 := by
  intro v k r n
  refine ⟨?_, ?_, rfl, rfl, rfl, rfl⟩
  · intro hcl
    cases hp : parseIntJS (headerValToString v) <;>
      simp_all [assignHeader_cl_eq]
  · intro hcl
    simp [assignHeader_cl_eq, hcl]

/-- Claim C4 (witness): a second `content-length` header on a request whose
`contentLength` is already `5` is ignored without error. -/
theorem claim4_witness :
    assignHeader "content-length" (.str "10") "Content-Length" reqCL510 = .ok reqCL510 :=
  (claim4_amended (.str "10") "Content-Length" reqCL510 5).2.1 rfl

/-- Claim C5: `onError` delivers the handler's `onError` at most once — the
first call on a non-aborted request sets `aborted` and forwards the error,
and a second call leaves the state unchanged, emits no handler call, and
throws nothing. -/
theorem claim5_at_most_once : ∀ (s : Request) (e1 e2 : JSError),
    s.aborted = false →
    s.handler.onError ≠ .absent →
    (step (.errorEv e1) s).state.aborted = true ∧
    (step (.errorEv e1) s).events = [Event.onError e1] ∧
    (step (.errorEv e2) (step (.errorEv e1) s).state).state = (step (.errorEv e1) s).state ∧
    (step (.errorEv e2) (step (.errorEv e1) s).state).events = [] ∧
    (step (.errorEv e2) (step (.errorEv e1) s).state).thrown = none := by
  intro s e1 e2 ha hp
  cases hb : s.handler.onError <;>
    simp_all [step, onFinallyClean, invokeHandlerMethod]

/-- Claim C5 (witness): the double-`onError` theorem at the concrete GET
request with two distinct transport errors. -/
theorem claim5_witness :
    (step (.errorEv (.external 1)) reqGET).state.aborted = true ∧
    (step (.errorEv (.external 1)) reqGET).events = [Event.onError (.external 1)] ∧
    (step (.errorEv (.external 2)) (step (.errorEv (.external 1)) reqGET).state).state =
      (step (.errorEv (.external 1)) reqGET).state ∧
    (step (.errorEv (.external 2)) (step (.errorEv (.external 1)) reqGET).state).events = [] ∧
    (step (.errorEv (.external 2)) (step (.errorEv (.external 1)) reqGET).state).thrown = none :=
  claim5_at_most_once reqGET (.external 1) (.external 2) rfl (by simp [reqGET, h0])

/-- Claim C6 (counterexample): an `Expect` header whose value contains CR
fails with the `InvalidHeader` kind (`InvalidArgumentError` from value
validation), not with `NotSupported` as the claim requires for every value. -/
theorem claim6_counterexample :
    addHeader "Expect" (.str "a\rb") reqGET = .error (.invalidArgument "Invalid Expect header.") ∧
    addHeader "Expect" (.str "a\rb") reqGET ≠
      .error (.notSupported "Expect header not supported.") := by
  refine ⟨rfl, ?_⟩
  intro h
  have h2 := (show addHeader "Expect" (.str "a\rb") reqGET =
    Except.error (JSError.invalidArgument "Invalid Expect header.") from rfl).symm.trans h
  injection h2 with h3
  exact JSError.noConfusion h3

/-- Claim C6 (amended): for every header entry with canonical name
`transfer-encoding`, `keep-alive`, `upgrade` or `expect` and a supplied
(non-undefined) value, adding always fails — with the `InvalidHeader` kind
for the first three, and for `expect` with `NotSupported` unless the value is
a scalar string failing `isValidHeaderValue`, in which case the value check
fails first with `InvalidHeader`; construction of a request whose headers
contain such an entry always fails. -/
theorem claim6_amended :
    ∀ (key : String) (v : JSVal) (r : Request) (origin : String) (o : Options) (hd : Handler),
    forbiddenName (canonicalHeaderName key) →
    v ≠ .undef →
    headersContains o.headers key v →
    (∃ e, addHeader key v r = .error e ∧
      (canonicalHeaderName key ≠ "expect" → isInvalidHeaderError e = true) ∧
      (canonicalHeaderName key = "expect" →
        e = .notSupported "Expect header not supported." ∨
        (isInvalidHeaderError e = true ∧ ∃ s, v = .str s ∧ isValidHeaderValue s = false))) ∧
    (∀ r', construct origin o hd ≠ .ok r') := by
  intro key v r origin o hd hf hv hm
  exact ⟨addHeader_forbidden key v r hf hv,
    construct_no_ok_of_headers (processHeaders_forbidden hm hf hv) origin hd⟩

/-- Claim C6 (witness): the amended theorem at `Transfer-Encoding: chunked` —
adding throws and constructing with that header cannot succeed. -/
theorem claim6_witness :
    addHeader "Transfer-Encoding" (.str "chunked") reqGET =
      .error (.invalidArgument "Invalid transfer-encoding header.") ∧
    construct "http://example.com" optsTE h0 ≠ .ok reqGET := by
  have hmain := claim6_amended "Transfer-Encoding" (.str "chunked") reqGET
    "http://example.com" optsTE h0 (Or.inl rfl) (by simp) (by simp [headersContains, optsTE])
  exact ⟨rfl, hmain.2 reqGET⟩

/-- Claim C7: deferred-error replay — on a live, pre-connect request, a
body-stream error is stored in the deferred slot, and the following
`onConnect(abort)` invokes `abort` synchronously with exactly that error
without forwarding `onConnect` to the handler or mutating the request; with
no deferred error, `onConnect` stores the abort capability and forwards
`onConnect` to the handler. -/
theorem claim7_deferred : ∀ (s : Request) (e : JSError),
    s.aborted = false → s.completed = false →
    (s.errorListener = true → s.abortCap = false →
      (step (.streamError e) s).state.deferredError = some e ∧
      step .connect (step (.streamError e) s).state =
        ⟨(step (.streamError e) s).state, [.abortCalled e], none⟩) ∧
    (s.deferredError = none → s.handler.onConnect ≠ .absent →
      (step .connect s).state.abortCap = true ∧
      (step .connect s).events = [Event.onConnect]) := by
  intro s e ha hc
  constructor
  · intro hl hcap
    cases hb : s.handler.onConnect <;>
      simp_all [step, invokeHandlerMethod]
  · intro hd hp
    cases hb : s.handler.onConnect <;>
      simp_all [step, invokeHandlerMethod]

/-- Claim C7 (witness): the deferred-replay theorem on the concrete
stream-body request with a concrete pre-connect stream error. -/
theorem claim7_witness :
    (step (.streamError (.external 3)) reqStream).state.deferredError = some (.external 3) ∧
    step .connect (step (.streamError (.external 3)) reqStream).state =
      ⟨(step (.streamError (.external 3)) reqStream).state,
        [.abortCalled (.external 3)], none⟩ :=
  (claim7_deferred reqStream (.external 3) rfl rfl).1 rfl rfl

/-- Claim C8 (counterexample): constructing with `path="/x"`, `method="GET"`,
no body and no headers succeeds, but `blocking` is `true` (it defaults to
`method !== 'HEAD'`), not `false` as the claim states. -/
theorem claim8_counterexample :
    construct "http://example.com" optsGET h0 = .ok reqGET ∧ reqGET.blocking ≠ false :=
  ⟨rfl, by simp [reqGET]⟩

/-- Claim C8 (amended): constructing with `path="/x"`, `method="GET"`, no
body and no headers succeeds with `idempotent = true`, `blocking = true` and
`body = null`. -/
theorem claim8_amended :
    construct "http://example.com" optsGET h0 = .ok reqGET ∧
    reqGET.idempotent = true ∧ reqGET.blocking = true ∧ reqGET.body = none :=
  ⟨rfl, rfl, rfl, rfl⟩

/-- Claim C9 (counterexample): the end-omitted range forms `bytes=0-` bare
and with a `/100` size part, which the claim says parse successfully with
`end = null`, in fact fail to parse (the regex makes the end group
mandatory), yielding the `null` failure signal, which differs from the
absent-header default. -/
theorem claim9_counterexample :
    parseRangeHeader (some "bytes=0-") = none ∧
    parseRangeHeader (some "bytes=0-/100") = none ∧
    (none : Option RangeResult) ≠ some ⟨0, none, none⟩ := by
  refine ⟨rfl, rfl, ?_⟩
  intro h
  exact Option.noConfusion h

/-- Claim C9 (amended): `parseRangeHeader` accepts `bytes=<start>-<end>/<size>`
with `<end>` mandatory and `<size>` optional; an absent or empty header
parses to the `{start: 0, end: null, size: null}` default; any other
successful parse has a non-null `end`; malformed inputs — including the
end-omitted forms — yield the distinct `null` failure signal. -/
theorem claim9_amended : ∀ (s : String) (r : RangeResult),
    parseRangeHeader (some s) = some r →
    (s = "" ∨ r.endV.isSome = true) ∧
    parseRangeHeader none = some ⟨0, none, none⟩ ∧
    parseRangeHeader (some "") = some ⟨0, none, none⟩ ∧
    parseRangeHeader (some "bytes=0-") = none ∧
    parseRangeHeader (some "bytes=0-/100") = none ∧
    parseRangeHeader (some "bytes=3-7/20") = some ⟨3, some 7, some 20⟩ ∧
    parseRangeHeader (some "bytes=3-7/") = some ⟨3, some 7, none⟩ := by
  intro s r h
  refine ⟨?_, rfl, rfl, rfl, rfl, rfl, rfl⟩
  by_cases hs : s = ""
  · exact Or.inl hs
  · right
    have hb : (s == "") = false := beq_eq_false_iff_ne.mpr hs
    simp only [parseRangeHeader, hb, Bool.false_eq_true, if_false] at h
    cases he : execRangeRegex s with
    | none => rw [he] at h; exact Option.noConfusion h
    | some t =>
      obtain ⟨d1, d2, od3⟩ := t
      rw [he] at h
      injection h with h'
      have hd2 := execRange_d2_ne he
      rw [← h']
      simp [hd2]

/-- Claim C9 (witness): the amended theorem at the well-formed input
`bytes=3-7/20`. -/
theorem claim9_witness :
    ("bytes=3-7/20" = "" ∨ (some (7 : Int)).isSome = true) ∧
    parseRangeHeader none = some ⟨0, none, none⟩ ∧
    parseRangeHeader (some "") = some ⟨0, none, none⟩ ∧
    parseRangeHeader (some "bytes=0-") = none ∧
    parseRangeHeader (some "bytes=0-/100") = none ∧
    parseRangeHeader (some "bytes=3-7/20") = some ⟨3, some 7, some 20⟩ ∧
    parseRangeHeader (some "bytes=3-7/") = some ⟨3, some 7, none⟩ :=
  claim9_amended "bytes=3-7/20" ⟨3, some 7, some 20⟩ rfl

/-- Claim C10: with a non-null query object, construction fails whenever the
path already contains `?` or `#`; and whenever construction succeeds, the
resulting path is the given path with `?` and the stringified query appended
when the query stringifies to a non-empty string, and the given path
unchanged otherwise. -/
theorem claim10_query :
    ∀ (origin : String) (o : Options) (hd : Handler) (q : List (String × String)),
    o.query = some (.obj q) →
    ((jsIncludesChar o.path '?' || jsIncludesChar o.path '#') = true →
      ∀ r, construct origin o hd ≠ .ok r) ∧
    (∀ r, construct origin o hd = .ok r →
      r.path = if stringifyQuery q != "" then o.path ++ "?" ++ stringifyQuery q else o.path) := by
  intro origin o hd q hq
  have hps : pathStep o = serializePathWithQuery o.path (.obj q) := by simp [pathStep, hq]
  constructor
  · intro hc r hok
    have hserr : serializePathWithQuery o.path (.obj q) =
        .error (.genericError "Query params cannot be passed when URL already contains \"?\".") := by
      simp [serializePathWithQuery, hc]
    cases hv : validateInputs o with
    | error e => simp [construct, hv] at hok
    | ok u =>
      cases hb : bodyStep o with
      | error e => simp [construct, hv, hb] at hok
      | ok t =>
        obtain ⟨bo, eL, nL⟩ := t
        simp [construct, hv, hb, hps, hserr] at hok
  · intro r hok
    cases hv : validateInputs o with
    | error e => simp [construct, hv] at hok
    | ok u =>
      cases hb : bodyStep o with
      | error e => simp [construct, hv, hb] at hok
      | ok t =>
        obtain ⟨bo, eL, nL⟩ := t
        cases hsq : serializePathWithQuery o.path (.obj q) with
        | error e => simp [construct, hv, hb, hps, hsq] at hok
        | ok pth =>
          have hcond : (jsIncludesChar o.path '?' || jsIncludesChar o.path '#') = false := by
            cases hcc : (jsIncludesChar o.path '?' || jsIncludesChar o.path '#') with
            | false => rfl
            | true => simp [serializePathWithQuery, hcc] at hsq
          have hpth : pth =
              (if stringifyQuery q = "" then o.path else o.path ++ "?" ++ stringifyQuery q) := by
            simp [serializePathWithQuery, hcond] at hsq
            exact hsq.symm
          cases hph : processHeaders o.headers (initRequest origin o hd bo eL nL pth) with
          | error e => simp [construct, hv, hb, hps, hsq, hph] at hok
          | ok r2 =>
            cases har : assertRequestHandler hd o.method o.upgrade with
            | error e => simp [construct, hv, hb, hps, hsq, hph, har] at hok
            | ok u2 =>
              have hrr : r2 = r := by
                simp [construct, hv, hb, hps, hsq, hph, har] at hok
                exact hok
              subst hrr
              have hp2 : r2.path = pth := processHeaders_path hph
              rw [hp2, hpth]
              by_cases hqe : stringifyQuery q = "" <;> simp [hqe]

/-- Claim C10 (witness): the theorem at a path already containing `?`
(construction cannot succeed) and at a clean path (the query is appended). -/
theorem claim10_witness :
    construct "http://example.com" optsQbad h0 ≠ .ok reqGET ∧
    { reqGET with path := "/a?x=y" }.path = "/a?x=y" := by
  constructor
  · exact (claim10_query "http://example.com" optsQbad h0 [("x", "y")] rfl).1 rfl reqGET
  · exact ((claim10_query "http://example.com" optsQgood h0 [("x", "y")] rfl).2
      { reqGET with path := "/a?x=y" } rfl).trans rfl

end Undici
